import Mathlib

/-!
Verification of the GigaAM SRT transcription tool (`transcribe.py`).

The Python source is embedded shallowly:
* floats become exact rationals (`ℚ`); Python float `//`, `%`, `int(...)`
  and `round(...)` (banker's rounding) are modelled exactly on `ℚ`;
* file-system access becomes an explicit snapshot structure `FS`;
* the external processes (ffmpeg, the ASR engine, file writes) become an
  explicit environment `Env` of oracles keyed by path;
* exceptions become `Except` results; mutable on-disk state (temporary
  files, written subtitle files) is threaded as an explicit state `St`.
-/

namespace GigaamSrt

instance {ε α : Type} [DecidableEq ε] [DecidableEq α] :
    DecidableEq (Except ε α) := fun a b => by
  cases a with
  | ok x =>
      cases b with
      | ok y =>
          exact if h : x = y then .isTrue (by rw [h])
            else .isFalse (fun hc => h (by injection hc))
      | error y => exact .isFalse (fun hc => by injection hc)
  | error x =>
      cases b with
      | ok y => exact .isFalse (fun hc => by injection hc)
      | error y =>
          exact if h : x = y then .isTrue (by rw [h])
            else .isFalse (fun hc => h (by injection hc))

/-! ### Python numeric primitives on exact rationals -/

/-- Python `int(x)` on a float: truncation toward zero. -/
def pyTrunc (x : ℚ) : ℤ :=
  if x < 0 then -(Rat.floor (-x)) else Rat.floor x

/-- Python float floor-division `a // b` (result is a whole-valued float). -/
def pyFloorDiv (a b : ℚ) : ℚ :=
  (Rat.floor (a / b) : ℚ)

/-- Python float modulo `a % b` (sign follows the divisor). -/
def pyMod (a b : ℚ) : ℚ :=
  a - b * (Rat.floor (a / b) : ℚ)

/-- Python `round(x)` with no digits: round half to even. -/
def pyRound (x : ℚ) : ℤ :=
  let f : ℤ := Rat.floor x
  let r : ℚ := x - (f : ℚ)
  if r < 1 / 2 then f
  else if 1 / 2 < r then f + 1
  else if f % 2 = 0 then f else f + 1

/-- Python `format(n, "0Nd")` for a nonnegative integer: left-pad the
decimal representation with zeros to a minimum width (never truncates). -/
def zpad (w : Nat) (n : ℤ) : String :=
  let s := toString n
  if s.length < w then String.mk (List.replicate (w - s.length) '0') ++ s else s

/-! ### `format_srt_timestamp` (transcribe.py lines 37-43) -/

/-- Embedding of `format_srt_timestamp`:
`hours = int(seconds // 3600)`, `minutes = int((seconds % 3600) // 60)`,
`secs = int(seconds % 60)`,
`milliseconds = int(round((seconds - int(seconds)) * 1000))`,
rendered as `{hours:02}:{minutes:02}:{secs:02},{milliseconds:03}`. -/
def format_srt_timestamp (seconds : ℚ) : String :=
  let hours : ℤ := pyTrunc (pyFloorDiv seconds 3600)
  let minutes : ℤ := pyTrunc (pyFloorDiv (pyMod seconds 3600) 60)
  let secs : ℤ := pyTrunc (pyMod seconds 60)
  let milliseconds : ℤ := pyRound ((seconds - (pyTrunc seconds : ℚ)) * 1000)
  zpad 2 hours ++ ":" ++ zpad 2 minutes ++ ":" ++ zpad 2 secs ++ "," ++
    zpad 3 milliseconds

/-! ### `write_srt` (transcribe.py lines 46-58) -/

/-- One transcription segment as produced by the engine: a pair of
boundary times and a text. -/
structure Seg where
  boundaries : ℚ × ℚ
  transcription : String
deriving DecidableEq

/-- The sequence of `srt_file.write` calls of `write_srt`, starting at
index `idx`; the produced file content is their concatenation. -/
def writeSrtFrom (idx : ℕ) : List Seg → String
  | [] => ""
  | seg :: rest =>
      (toString (idx : ℤ) ++ "\n") ++
      (format_srt_timestamp seg.boundaries.1 ++ " --> " ++
        format_srt_timestamp seg.boundaries.2 ++ "\n") ++
      (seg.transcription ++ "\n\n") ++
      writeSrtFrom (idx + 1) rest

/-- Embedding of `write_srt`: the full content written to the output file
(`enumerate(segments, start=1)`). -/
def write_srt (segments : List Seg) : String :=
  writeSrtFrom 1 segments

/-- One SRT block as the spec describes it: index line, time-range line
`HH:MM:SS,mmm --> HH:MM:SS,mmm`, the text verbatim, a blank separator. -/
def srtBlock (idx : ℕ) (seg : Seg) : String :=
  toString (idx : ℤ) ++ "\n" ++
  format_srt_timestamp seg.boundaries.1 ++ " --> " ++
  format_srt_timestamp seg.boundaries.2 ++ "\n" ++
  seg.transcription ++ "\n\n"

/-! ### Path utilities (`os.path.splitext`, lowercasing, extensions) -/

/-- Index of the last occurrence of `c` in `l` (Python `str.rfind`,
with `none` for "not found"). -/
def lastIndexOf (l : List Char) (c : Char) : Option Nat :=
  l.enum.foldl (fun acc p => if p.2 = c then some p.1 else acc) none

/-- Python `str.rfind` proper: `-1` when the character does not occur. -/
def rfind (l : List Char) (c : Char) : ℤ :=
  match lastIndexOf l c with
  | some n => (n : ℤ)
  | none => -1

/-- Embedding of `os.path.splitext` for POSIX paths: split at the last
dot that comes after the last `/`, unless every character between the
last `/` and that dot is itself a dot (leading dots of the basename do
not start an extension). -/
def splitext (p : String) : String × String :=
  let l := p.toList
  let sepIdx : ℤ := rfind l '/'
  let dotIdx : ℤ := rfind l '.'
  if dotIdx > sepIdx then
    if (List.range l.length).any
        (fun j => decide (sepIdx < (j : ℤ) ∧ (j : ℤ) < dotIdx) &&
          (l.getD j '.' != '.')) then
      (String.mk (l.take dotIdx.toNat), String.mk (l.drop dotIdx.toNat))
    else (p, "")
  else (p, "")

/-- Python `str.lower` restricted to ASCII (all recognized extensions are
ASCII, so the comparison below is unaffected). -/
def lowerStr (s : String) : String :=
  String.mk (s.toList.map Char.toLower)

/-- Python `str.endswith`, character-wise. -/
def strEndsWith (s suffix : String) : Bool :=
  suffix.toList.isSuffixOf s.toList

/-- The `MEDIA_EXTENSIONS` constant (transcribe.py lines 83-97). -/
def MEDIA_EXTENSIONS : List String :=
  [".aac", ".aiff", ".flac", ".m4a", ".mka", ".mkv", ".mov", ".mp3",
   ".mp4", ".ogg", ".opus", ".wav", ".webm"]

/-- Embedding of `is_media_file`:
`os.path.splitext(path)[1].lower() in MEDIA_EXTENSIONS`. -/
def is_media_file (path : String) : Bool :=
  decide (lowerStr (splitext path).2 ∈ MEDIA_EXTENSIONS)

/-! ### File-system snapshot and discovery (transcribe.py lines 104-145) -/

/-- A stable file-system snapshot: existence and directory tests per
path, plus the enumeration order `os.walk` / `os.scandir` would produce
for each directory. -/
structure FS where
  pathExists : String → Bool
  isDir : String → Bool
  walkFiles : String → List String
  scanFiles : String → List String

/-- Embedding of `has_adjacent_srt`:
`os.path.exists(os.path.splitext(path)[0] + ".srt")`. -/
def has_adjacent_srt (fs : FS) (path : String) : Bool :=
  fs.pathExists ((splitext path).1 ++ ".srt")

/-- Embedding of `_iter_directory_files`. -/
def iter_directory_files (fs : FS) (directory : String) (recursive : Bool) :
    List String :=
  if recursive then fs.walkFiles directory else fs.scanFiles directory

/-- The two exceptions `collect_media_paths` can raise:
`FileNotFoundError` and `ValueError` for an unsupported media file. -/
inductive DiscoveryError where
  | notFound (p : String)
  | unsupported (p : String)
deriving DecidableEq

/-- The inner `for candidate in _iter_directory_files(...)` loop of
`collect_media_paths`, threading the `seen` set and `discovered` list. -/
def collectDir (fs : FS) : List String → List String → List String →
    List String × List String
  | [], seen, disc => (seen, disc)
  | c :: rest, seen, disc =>
      if is_media_file c = false ∨ has_adjacent_srt fs c = true then
        collectDir fs rest seen disc
      else if c ∈ seen then
        collectDir fs rest seen disc
      else
        collectDir fs rest (c :: seen) (disc ++ [c])

/-- The outer `for original in inputs` loop of `collect_media_paths`. -/
def collectGo (fs : FS) (recursive : Bool) :
    List String → List String → List String →
    Except DiscoveryError (List String)
  | [], _, disc => .ok disc
  | original :: rest, seen, disc =>
      if fs.pathExists original = false then
        .error (.notFound original)
      else if fs.isDir original then
        let sd := collectDir fs (iter_directory_files fs original recursive)
          seen disc
        collectGo fs recursive rest sd.1 sd.2
      else if is_media_file original = false then
        .error (.unsupported original)
      else if has_adjacent_srt fs original then
        collectGo fs recursive rest seen disc
      else if original ∈ seen then
        collectGo fs recursive rest seen disc
      else
        collectGo fs recursive rest (original :: seen) (disc ++ [original])

/-- Embedding of `collect_media_paths` (transcribe.py lines 119-145). -/
def collect_media_paths (fs : FS) (inputs : List String) (recursive : Bool) :
    Except DiscoveryError (List String) :=
  collectGo fs recursive inputs [] []

/-! ### Orchestrator state and environment (transcribe.py lines 61-80, 148-177) -/

/-- The exceptions the per-file pipeline can raise: `RuntimeError` (ffmpeg
missing), `subprocess.CalledProcessError` from a failed ffmpeg run, an
engine exception, and a failure writing the subtitle file. -/
inductive Err where
  | runtimeErr (msg : String)
  | transcodeFailed (p : String)
  | engineErr (p : String) (msg : String)
  | writeErr (p : String)
deriving DecidableEq

/-- Behaviour of the external collaborators, keyed by path: whether the
ffmpeg binary is on PATH, whether ffmpeg succeeds on a given input,
what `transcribe_longform` returns for a given WAV path, and whether a
subtitle write to a given output path succeeds. -/
structure Env where
  fs : FS
  ffmpegAvailable : Bool
  ffmpegOk : String → Bool
  engine : String → Except String (List Seg)
  writeOk : String → Bool

/-- The argparse fields the pipeline consults. -/
structure Args where
  ignore_errors : Bool
  recursive : Bool
  output : Option String
deriving DecidableEq

/-- On-disk and instrumentation state threaded through the pipeline:
a counter generating fresh temporary names, the set of temporary files
currently on disk, the subtitle files written so far (path and
segments), and the WAV paths handed to the engine, in order. -/
structure St where
  tempCounter : Nat
  tempFiles : List String
  outputs : List (String × List Seg)
  engineCalls : List String
deriving DecidableEq

/-- The initial state: empty scratch directory, nothing written. -/
def st0 : St := ⟨0, [], [], []⟩

/-- Fresh name produced by `tempfile.NamedTemporaryFile(suffix=".wav")`. -/
def tempName (n : Nat) : String :=
  "/tmp/tmp" ++ toString n ++ ".wav"

/-- Effect of `os.remove` on a temporary file. -/
def removeTemp (st : St) (p : String) : St :=
  { st with tempFiles := st.tempFiles.erase p }

/-- Effect of `tempfile.NamedTemporaryFile(suffix=".wav", delete=False)`:
a fresh uniquely-named file appears on disk. -/
def tempPush (st : St) : St :=
  { st with
    tempCounter := st.tempCounter + 1
    tempFiles := tempName st.tempCounter :: st.tempFiles }

/-- Embedding of `ensure_wav` (transcribe.py lines 61-80): `.wav` inputs
pass through; otherwise a temporary file is created and ffmpeg is run
with `check=True` — note the temporary file is created before ffmpeg
runs and is not removed by `ensure_wav` when ffmpeg fails. -/
def ensure_wav (env : Env) (st : St) (path : String) :
    St × Except Err (String × Bool) :=
  if strEndsWith (lowerStr path) ".wav" then
    (st, .ok (path, false))
  else if env.ffmpegAvailable = false then
    (st, .error (.runtimeErr "ffmpeg is required to convert audio formats to WAV"))
  else
    if env.ffmpegOk path then (tempPush st, .ok (tempName st.tempCounter, true))
    else (tempPush st, .error (.transcodeFailed path))

/-- Embedding of `transcribe_audio_file` (transcribe.py lines 148-177):
normalize, call the engine inside `try/except/finally` (only the engine
call is guarded; `ignore_errors` turns an engine exception into a `None`
return; the `finally` deletes the temporary file in every case), then
write the SRT next to the input or to the override. -/
def transcribe_audio_file (env : Env) (args : Args) (st : St)
    (audio_path : String) (output_override : Option String) :
    St × Except Err (Option String) :=
  match ensure_wav env st audio_path with
  | (st1, .error e) => (st1, .error e)
  | (st1, .ok (wav_path, is_temp)) =>
    let st2 : St := { st1 with engineCalls := st1.engineCalls ++ [wav_path] }
    match env.engine wav_path with
    | .error msg =>
      let st3 := if is_temp then removeTemp st2 wav_path else st2
      if args.ignore_errors then (st3, .ok none)
      else (st3, .error (.engineErr audio_path msg))
    | .ok segments =>
      let st3 := if is_temp then removeTemp st2 wav_path else st2
      let output_path := output_override.getD ((splitext audio_path).1 ++ ".srt")
      if env.writeOk output_path then
        ({ st3 with outputs := st3.outputs ++ [(output_path, segments)] },
          .ok (some output_path))
      else (st3, .error (.writeErr output_path))

/-- The CLI batch loop of `main` (transcribe.py lines 474-481): each file
in turn; an uncaught exception aborts the whole run (`.error`), and a
`None` result with `ignore_errors` disabled breaks out of the loop. -/
def runBatch (env : Env) (args : Args) (st : St) :
    List String → St × Except Err Unit
  | [] => (st, .ok ())
  | p :: rest =>
    match transcribe_audio_file env args st p args.output with
    | (st1, .error e) => (st1, .error e)
    | (st1, .ok r) =>
      if r = none ∧ args.ignore_errors = false then (st1, .ok ())
      else runBatch env args st1 rest

/-- Association of each scheduled file with the WAV path its engine call
receives on a run without transcode failures: a `.wav` input is passed
through unchanged, any other input is replaced by the generated
temporary name, consuming one counter value per transcoded file. -/
def pathWavPairs (counter : Nat) : List String → List (String × String)
  | [] => []
  | p :: rest =>
      if strEndsWith (lowerStr p) ".wav" then
        (p, p) :: pathWavPairs counter rest
      else
        (p, tempName counter) :: pathWavPairs (counter + 1) rest

/-- Outcome of `main` up to engine loading: either discovery fails before
the model is ever loaded, or the model is loaded and the batch runs. -/
structure CliResult where
  discoveryError : Option DiscoveryError
  modelLoaded : Bool
  batch : Option (St × Except Err Unit)

/-- The order of operations in `main` (transcribe.py lines 440-481):
`collect_media_paths` runs first and a discovery error aborts via
`parser.error` before `load_asr_model` is called. -/
def cli_main (env : Env) (args : Args) (inputs : List String) : CliResult :=
  match collect_media_paths env.fs inputs args.recursive with
  | .error e => ⟨some e, false, none⟩
  | .ok paths => ⟨none, true, some (runBatch env args st0 paths)⟩

/-! ### Interactive worker (transcribe.py lines 242-284) -/

/-- Messages surfaced to the GUI sink (`append_log` / message boxes). -/
inductive Report where
  | discoveryError (e : DiscoveryError)
  | nothingFound
  | fileError (p : String) (e : Err)
  | done (p : String)
deriving DecidableEq

/-- Worker-visible state: the pipeline state plus the sink log. -/
structure WSt where
  st : St
  log : List Report
deriving DecidableEq

/-- The `for audio_path in collected` loop of `process_inputs`: every
exception from `transcribe_audio_file` is caught and reported; with
`ignore_errors` disabled the loop (not the worker) breaks. -/
def processFiles (env : Env) (args : Args) : WSt → List String → WSt
  | w, [] => w
  | w, p :: rest =>
    match transcribe_audio_file env args w.st p none with
    | (st1, .error e) =>
      let w1 : WSt := ⟨st1, w.log ++ [.fileError p e]⟩
      if args.ignore_errors then processFiles env args w1 rest else w1
    | (st1, .ok none) => processFiles env args ⟨st1, w.log⟩ rest
    | (st1, .ok (some out)) =>
      processFiles env args ⟨st1, w.log ++ [.done out]⟩ rest

/-- Embedding of `process_inputs` (transcribe.py lines 242-272):
discovery errors are caught and reported; an empty collection is
reported; otherwise the per-file loop runs. -/
def process_inputs (env : Env) (args : Args) (w : WSt)
    (inputs : List String) : WSt :=
  match collect_media_paths env.fs inputs args.recursive with
  | .error e => ⟨w.st, w.log ++ [.discoveryError e]⟩
  | .ok collected =>
    if collected.isEmpty then ⟨w.st, w.log ++ [.nothingFound]⟩
    else processFiles env args w collected

/-- What one `task_queue.get(timeout=0.1)` poll yields: `Empty`, a real
work item, or the `None` sentinel. -/
inductive Poll where
  | empty
  | item (w : Option (List String))
deriving DecidableEq

/-- One iteration's observations: the `stop_event` flag read at the top
of the loop and the poll outcome. -/
structure IterObs where
  stopSet : Bool
  poll : Poll
deriving DecidableEq

/-- How (whether) the worker loop has terminated. -/
inductive WStatus where
  | running
  | stoppedByFlag
  | stoppedBySentinel
deriving DecidableEq

/-- Embedding of the `worker` loop (transcribe.py lines 274-284), run
against a finite trace of per-iteration observations. -/
def workerRun (env : Env) (args : Args) :
    WSt → List IterObs → WSt × WStatus
  | w, [] => (w, .running)
  | w, obs :: rest =>
    if obs.stopSet then (w, .stoppedByFlag)
    else
      match obs.poll with
      | .empty => workerRun env args w rest
      | .item none => (w, .stoppedBySentinel)
      | .item (some inputs) =>
        workerRun env args (process_inputs env args w inputs) rest

/-! ### Concrete fixtures for examples and witnesses -/

/-- Snapshot with one directory `d` holding `a.mp3`, `a.srt`, `b.wav`. -/
def exFS : FS where
  pathExists p := decide (p ∈ ["d", "d/a.mp3", "d/a.srt", "d/b.wav"])
  isDir p := decide (p = "d")
  walkFiles p := if p = "d" then ["d/a.mp3", "d/a.srt", "d/b.wav"] else []
  scanFiles p := if p = "d" then ["d/a.mp3", "d/a.srt", "d/b.wav"] else []

/-- Environment in which ffmpeg is installed but fails on every input,
while the engine and file writes succeed. -/
def envT : Env where
  fs := exFS
  ffmpegAvailable := true
  ffmpegOk _ := false
  engine _ := .ok []
  writeOk _ := true

/-- Default CLI policy: `ignore_errors = True`, no recursion, no output
override. -/
def argsI : Args := ⟨true, false, none⟩

/-- CLI policy with `--raise-errors`. -/
def argsR : Args := ⟨false, false, none⟩

/-- Snapshot containing a single plain text file. -/
def exFS2 : FS where
  pathExists p := decide (p = "notes.txt")
  isDir _ := false
  walkFiles _ := []
  scanFiles _ := []

/-- Environment where every external collaborator succeeds. -/
def envOk : Env where
  fs := exFS
  ffmpegAvailable := true
  ffmpegOk _ := true
  engine _ := .ok []
  writeOk _ := true

/-- Environment whose engine fails on every input. -/
def envE : Env where
  fs := exFS
  ffmpegAvailable := true
  ffmpegOk _ := true
  engine _ := .error "boom"
  writeOk _ := true

/-- Fresh worker state. -/
def w0 : WSt := ⟨st0, []⟩

/-! ### Helper lemmas -/

theorem rat_floor_eq_floor (q : ℚ) : Rat.floor q = ⌊q⌋ := by
  rw [Rat.floor_def', Rat.floor_def]

theorem ratFloor_eq_of {q : ℚ} {n : ℤ} (h1 : (n : ℚ) ≤ q) (h2 : q < n + 1) :
    Rat.floor q = n := by
  rw [rat_floor_eq_floor]
  exact Int.floor_eq_iff.mpr ⟨h1, h2⟩

theorem ensure_wav_spec (env : Env) (st : St) (path : String) :
    ensure_wav env st path = (st, .ok (path, false)) ∨
    ensure_wav env st path =
      (st, .error (.runtimeErr "ffmpeg is required to convert audio formats to WAV")) ∨
    ensure_wav env st path = (tempPush st, .ok (tempName st.tempCounter, true)) ∨
    ensure_wav env st path = (tempPush st, .error (.transcodeFailed path)) := by
  unfold ensure_wav
  by_cases h1 : strEndsWith (lowerStr path) ".wav"
  · exact Or.inl (by simp [h1])
  · by_cases h2 : env.ffmpegAvailable
    · by_cases h3 : env.ffmpegOk path
      · exact Or.inr (Or.inr (Or.inl (by simp [h1, h2, h3])))
      · exact Or.inr (Or.inr (Or.inr (by simp [h1, h2, h3])))
    · refine Or.inr (Or.inl ?_)
      simp only [Bool.not_eq_true] at h2
      simp [h1, h2]

theorem collectDir_adj (fs : FS) (cands : List String) :
    ∀ (seen disc : List String),
    (∀ p ∈ disc, has_adjacent_srt fs p = false) →
    ∀ p ∈ (collectDir fs cands seen disc).2, has_adjacent_srt fs p = false := by
  induction cands with
  | nil => intro seen disc h; simpa [collectDir] using h
  | cons c rest ih =>
      intro seen disc h
      simp only [collectDir]
      by_cases hc : is_media_file c = false ∨ has_adjacent_srt fs c = true
      · rw [if_pos hc]; exact ih seen disc h
      · rw [if_neg hc]
        by_cases hs : c ∈ seen
        · rw [if_pos hs]; exact ih seen disc h
        · rw [if_neg hs]
          refine ih _ _ ?_
          intro p hp
          rcases List.mem_append.mp hp with hp | hp
          · exact h p hp
          · push_neg at hc
            rcases List.mem_singleton.mp hp with rfl
            exact Bool.eq_false_iff.mpr hc.2

theorem collectGo_adj (fs : FS) (recursive : Bool) (inputs : List String) :
    ∀ (seen disc out : List String),
    (∀ p ∈ disc, has_adjacent_srt fs p = false) →
    collectGo fs recursive inputs seen disc = .ok out →
    ∀ p ∈ out, has_adjacent_srt fs p = false := by
  induction inputs with
  | nil =>
      intro seen disc out h heq
      simp only [collectGo] at heq
      injection heq with heq
      exact heq ▸ h
  | cons a rest ih =>
      intro seen disc out h heq
      simp only [collectGo] at heq
      by_cases h1 : fs.pathExists a = false
      · rw [if_pos h1] at heq; exact absurd heq (by simp)
      · rw [if_neg h1] at heq
        by_cases h2 : fs.isDir a = true
        · rw [if_pos h2] at heq
          exact ih _ _ _ (collectDir_adj fs _ seen disc h) heq
        · rw [if_neg h2] at heq
          by_cases h3 : is_media_file a = false
          · rw [if_pos h3] at heq; exact absurd heq (by simp)
          · rw [if_neg h3] at heq
            by_cases h4 : has_adjacent_srt fs a = true
            · rw [if_pos h4] at heq; exact ih _ _ _ h heq
            · rw [if_neg h4] at heq
              by_cases h5 : a ∈ seen
              · rw [if_pos h5] at heq; exact ih _ _ _ h heq
              · rw [if_neg h5] at heq
                refine ih _ _ _ ?_ heq
                intro p hp
                rcases List.mem_append.mp hp with hp | hp
                · exact h p hp
                · rcases List.mem_singleton.mp hp with rfl
                  exact Bool.eq_false_iff.mpr h4

theorem collectDir_nodup (fs : FS) (cands : List String) :
    ∀ (seen disc : List String), disc.Nodup → (∀ p ∈ disc, p ∈ seen) →
    (collectDir fs cands seen disc).2.Nodup ∧
    ∀ p ∈ (collectDir fs cands seen disc).2,
      p ∈ (collectDir fs cands seen disc).1 := by
  induction cands with
  | nil => intro seen disc h1 h2; simpa [collectDir] using ⟨h1, h2⟩
  | cons c rest ih =>
      intro seen disc h1 h2
      simp only [collectDir]
      by_cases hc : is_media_file c = false ∨ has_adjacent_srt fs c = true
      · rw [if_pos hc]; exact ih seen disc h1 h2
      · rw [if_neg hc]
        by_cases hs : c ∈ seen
        · rw [if_pos hs]; exact ih seen disc h1 h2
        · rw [if_neg hs]
          refine ih _ _ ?_ ?_
          · refine List.Nodup.append h1 (List.nodup_singleton c) ?_
            intro x hx hx'
            rcases List.mem_singleton.mp hx' with rfl
            exact hs (h2 x hx)
          · intro p hp
            rcases List.mem_append.mp hp with hp' | hp'
            · exact List.mem_cons_of_mem c (h2 p hp')
            · rcases List.mem_singleton.mp hp' with rfl
              exact List.mem_cons_self _ seen

theorem collectGo_nodup (fs : FS) (recursive : Bool) (inputs : List String) :
    ∀ (seen disc out : List String), disc.Nodup → (∀ p ∈ disc, p ∈ seen) →
    collectGo fs recursive inputs seen disc = .ok out → out.Nodup := by
  induction inputs with
  | nil =>
      intro seen disc out h1 h2 heq
      simp only [collectGo] at heq
      injection heq with heq
      exact heq ▸ h1
  | cons a rest ih =>
      intro seen disc out h1 h2 heq
      simp only [collectGo] at heq
      by_cases e1 : fs.pathExists a = false
      · rw [if_pos e1] at heq; exact absurd heq (by simp)
      · rw [if_neg e1] at heq
        by_cases e2 : fs.isDir a = true
        · rw [if_pos e2] at heq
          rcases collectDir_nodup fs (iter_directory_files fs a recursive)
            seen disc h1 h2 with ⟨hn, hm⟩
          exact ih _ _ _ hn hm heq
        · rw [if_neg e2] at heq
          by_cases e3 : is_media_file a = false
          · rw [if_pos e3] at heq; exact absurd heq (by simp)
          · rw [if_neg e3] at heq
            by_cases e4 : has_adjacent_srt fs a = true
            · rw [if_pos e4] at heq; exact ih _ _ _ h1 h2 heq
            · rw [if_neg e4] at heq
              by_cases e5 : a ∈ seen
              · rw [if_pos e5] at heq; exact ih _ _ _ h1 h2 heq
              · rw [if_neg e5] at heq
                refine ih _ _ _ ?_ ?_ heq
                · refine List.Nodup.append h1 (List.nodup_singleton a) ?_
                  intro x hx hx'
                  rcases List.mem_singleton.mp hx' with rfl
                  exact e5 (h2 x hx)
                · intro p hp
                  rcases List.mem_append.mp hp with hp' | hp'
                  · exact List.mem_cons_of_mem a (h2 p hp')
                  · rcases List.mem_singleton.mp hp' with rfl
                    exact List.mem_cons_self _ seen

theorem collectGo_err (fs : FS) (recursive : Bool) (inputs : List String) :
    ∀ (seen disc : List String) (e : DiscoveryError),
    collectGo fs recursive inputs seen disc = .error e →
    (∃ p ∈ inputs, fs.pathExists p = false ∧ e = .notFound p) ∨
    (∃ p ∈ inputs, fs.pathExists p = true ∧ fs.isDir p = false ∧
      is_media_file p = false ∧ e = .unsupported p) := by
  induction inputs with
  | nil => intro seen disc e heq; exact absurd heq (by simp [collectGo])
  | cons a rest ih =>
      intro seen disc e heq
      simp only [collectGo] at heq
      by_cases e1 : fs.pathExists a = false
      · rw [if_pos e1] at heq
        injection heq with heq
        exact Or.inl ⟨a, List.mem_cons_self a rest, e1, heq.symm⟩
      · rw [if_neg e1] at heq
        have e1' : fs.pathExists a = true := by
          cases h : fs.pathExists a
          · exact absurd h e1
          · rfl
        by_cases e2 : fs.isDir a = true
        · rw [if_pos e2] at heq
          rcases ih _ _ _ heq with ⟨p, hp, h⟩ | ⟨p, hp, h⟩
          · exact Or.inl ⟨p, List.mem_cons_of_mem a hp, h⟩
          · exact Or.inr ⟨p, List.mem_cons_of_mem a hp, h⟩
        · rw [if_neg e2] at heq
          have e2' : fs.isDir a = false := by
            cases h : fs.isDir a
            · rfl
            · exact absurd h e2
          by_cases e3 : is_media_file a = false
          · rw [if_pos e3] at heq
            injection heq with heq
            exact Or.inr ⟨a, List.mem_cons_self a rest, e1', e2', e3, heq.symm⟩
          · rw [if_neg e3] at heq
            by_cases e4 : has_adjacent_srt fs a = true
            · rw [if_pos e4] at heq
              rcases ih _ _ _ heq with ⟨p, hp, h⟩ | ⟨p, hp, h⟩
              · exact Or.inl ⟨p, List.mem_cons_of_mem a hp, h⟩
              · exact Or.inr ⟨p, List.mem_cons_of_mem a hp, h⟩
            · rw [if_neg e4] at heq
              by_cases e5 : a ∈ seen
              · rw [if_pos e5] at heq
                rcases ih _ _ _ heq with ⟨p, hp, h⟩ | ⟨p, hp, h⟩
                · exact Or.inl ⟨p, List.mem_cons_of_mem a hp, h⟩
                · exact Or.inr ⟨p, List.mem_cons_of_mem a hp, h⟩
              · rw [if_neg e5] at heq
                rcases ih _ _ _ heq with ⟨p, hp, h⟩ | ⟨p, hp, h⟩
                · exact Or.inl ⟨p, List.mem_cons_of_mem a hp, h⟩
                · exact Or.inr ⟨p, List.mem_cons_of_mem a hp, h⟩

theorem collectGo_ok_inputs (fs : FS) (recursive : Bool)
    (inputs : List String) :
    ∀ (seen disc out : List String),
    collectGo fs recursive inputs seen disc = .ok out →
    ∀ p ∈ inputs, fs.pathExists p = true ∧
      (fs.isDir p = false → is_media_file p = true) := by
  induction inputs with
  | nil => intro seen disc out _ p hp; exact absurd hp (by simp)
  | cons a rest ih =>
      intro seen disc out heq p hp
      simp only [collectGo] at heq
      by_cases e1 : fs.pathExists a = false
      · rw [if_pos e1] at heq; exact absurd heq (by simp)
      · rw [if_neg e1] at heq
        have e1' : fs.pathExists a = true := by
          cases h : fs.pathExists a
          · exact absurd h e1
          · rfl
        by_cases e2 : fs.isDir a = true
        · rw [if_pos e2] at heq
          rcases List.mem_cons.mp hp with rfl | hp'
          · exact ⟨e1', fun hcontra => absurd e2 (by rw [hcontra]; simp)⟩
          · exact ih _ _ _ heq p hp'
        · rw [if_neg e2] at heq
          by_cases e3 : is_media_file a = false
          · rw [if_pos e3] at heq; exact absurd heq (by simp)
          · rw [if_neg e3] at heq
            have e3' : is_media_file a = true := by
              cases h : is_media_file a
              · exact absurd h e3
              · rfl
            rcases List.mem_cons.mp hp with rfl | hp'
            · exact ⟨e1', fun _ => e3'⟩
            · by_cases e4 : has_adjacent_srt fs a = true
              · rw [if_pos e4] at heq; exact ih _ _ _ heq p hp'
              · rw [if_neg e4] at heq
                by_cases e5 : a ∈ seen
                · rw [if_pos e5] at heq; exact ih _ _ _ heq p hp'
                · rw [if_neg e5] at heq; exact ih _ _ _ heq p hp'

theorem writeSrtFrom_eq_blocks (segs : List Seg) :
    ∀ n, writeSrtFrom n segs =
      ((segs.enumFrom n).map fun p => srtBlock p.1 p.2).foldr
        (fun a b => a ++ b) "" := by
  induction segs with
  | nil => intro n; simp [writeSrtFrom, List.enumFrom]
  | cons s rest ih =>
      intro n
      simp only [writeSrtFrom, List.enumFrom, List.map_cons, List.foldr_cons,
        ih (n + 1), srtBlock]
      simp [String.append_assoc]

theorem transcribe_clean (env : Env) (args : Args) (st : St) (p : String)
    (ov : Option String) (hig : args.ignore_errors = true)
    (hnt : strEndsWith (lowerStr p) ".wav" = true ∨
      (env.ffmpegAvailable = true ∧ env.ffmpegOk p = true))
    (hwr : ∀ o, env.writeOk o = true) :
    ∃ st1 r, transcribe_audio_file env args st p ov = (st1, .ok r) ∧
      st1.tempCounter =
        (if strEndsWith (lowerStr p) ".wav" then st.tempCounter
         else st.tempCounter + 1) ∧
      (∀ pr ∈ st.outputs, pr ∈ st1.outputs) ∧
      (∀ segs, env.engine
          (if strEndsWith (lowerStr p) ".wav" then p
           else tempName st.tempCounter) = .ok segs →
        (ov.getD ((splitext p).1 ++ ".srt"), segs) ∈ st1.outputs) := by
  by_cases hbw : strEndsWith (lowerStr p) ".wav" = true
  · have hew : ensure_wav env st p = (st, .ok (p, false)) := by
      simp [ensure_wav, hbw]
    unfold transcribe_audio_file
    rw [hew]
    cases he : env.engine p with
    | error msg =>
        refine ⟨{ st with engineCalls := st.engineCalls ++ [p] }, none,
          by simp [he, hig], by rw [if_pos hbw], fun pr hpr => hpr, ?_⟩
        intro segs hsegs
        rw [if_pos hbw] at hsegs
        simp [he] at hsegs
    | ok segs =>
        refine ⟨{ st with
            outputs := st.outputs ++ [(ov.getD ((splitext p).1 ++ ".srt"), segs)]
            engineCalls := st.engineCalls ++ [p] },
          some (ov.getD ((splitext p).1 ++ ".srt")),
          by simp [he, hwr], by rw [if_pos hbw], ?_, ?_⟩
        · intro pr hpr
          exact List.mem_append_left _ hpr
        · intro segs' hsegs
          rw [if_pos hbw] at hsegs
          simp only [he, Except.ok.injEq] at hsegs
          subst hsegs
          exact List.mem_append_right _ (List.mem_singleton_self _)
  · rcases hnt with hnt | ⟨hav, hok⟩
    · exact absurd hnt hbw
    · have hew : ensure_wav env st p =
          (tempPush st, .ok (tempName st.tempCounter, true)) := by
        simp [ensure_wav, hbw, hav, hok]
      unfold transcribe_audio_file
      rw [hew]
      cases he : env.engine (tempName st.tempCounter) with
      | error msg =>
          refine ⟨⟨st.tempCounter + 1, st.tempFiles, st.outputs,
              st.engineCalls ++ [tempName st.tempCounter]⟩, none,
            by simp [he, hig, tempPush, removeTemp, List.erase_cons_head],
            by rw [if_neg hbw], fun pr hpr => hpr, ?_⟩
          intro segs hsegs
          rw [if_neg hbw] at hsegs
          simp [he] at hsegs
      | ok segs =>
          refine ⟨⟨st.tempCounter + 1, st.tempFiles,
              st.outputs ++ [(ov.getD ((splitext p).1 ++ ".srt"), segs)],
              st.engineCalls ++ [tempName st.tempCounter]⟩,
            some (ov.getD ((splitext p).1 ++ ".srt")),
            by simp [he, hwr, tempPush, removeTemp, List.erase_cons_head],
            by rw [if_neg hbw], ?_, ?_⟩
          · intro pr hpr
            exact List.mem_append_left _ hpr
          · intro segs' hsegs
            rw [if_neg hbw] at hsegs
            simp only [he, Except.ok.injEq] at hsegs
            subst hsegs
            exact List.mem_append_right _ (List.mem_singleton_self _)

theorem runBatch_clean (env : Env) (args : Args) (paths : List String)
    (hig : args.ignore_errors = true)
    (hnt : ∀ p ∈ paths, strEndsWith (lowerStr p) ".wav" = true ∨
      (env.ffmpegAvailable = true ∧ env.ffmpegOk p = true))
    (hwr : ∀ o, env.writeOk o = true) :
    ∀ st : St,
      (runBatch env args st paths).2 = .ok () ∧
      (∀ pr ∈ st.outputs, pr ∈ (runBatch env args st paths).1.outputs) ∧
      (∀ pw ∈ pathWavPairs st.tempCounter paths, ∀ segs,
        env.engine pw.2 = .ok segs →
          (args.output.getD ((splitext pw.1).1 ++ ".srt"), segs) ∈
            (runBatch env args st paths).1.outputs) := by
  induction paths with
  | nil =>
      intro st
      exact ⟨rfl, fun pr hpr => hpr,
        fun pw hpw => absurd hpw (by simp [pathWavPairs])⟩
  | cons p rest ih =>
      intro st
      obtain ⟨st1, r, heq, hcnt, hsub, hpout⟩ :=
        transcribe_clean env args st p args.output hig
          (hnt p (List.mem_cons_self p rest)) hwr
      have hrest := ih (fun q hq => hnt q (List.mem_cons_of_mem p hq))
      simp only [runBatch]
      rw [heq]
      dsimp only
      rw [if_neg (by simp [hig])]
      rcases hrest st1 with ⟨h1, h2, h3⟩
      refine ⟨h1, fun pr hpr => h2 pr (hsub pr hpr), ?_⟩
      intro pw hpw segs hsegs
      simp only [pathWavPairs] at hpw
      by_cases hbw : strEndsWith (lowerStr p) ".wav" = true
      · rw [if_pos hbw] at hcnt hpw
        rcases List.mem_cons.mp hpw with rfl | hpw'
        · refine h2 _ (hpout segs ?_)
          rw [if_pos hbw]
          exact hsegs
        · rw [hcnt] at h3
          exact h3 pw hpw' segs hsegs
      · rw [if_neg hbw] at hcnt hpw
        rcases List.mem_cons.mp hpw with rfl | hpw'
        · refine h2 _ (hpout segs ?_)
          rw [if_neg hbw]
          exact hsegs
        · rw [hcnt] at h3
          exact h3 pw hpw' segs hsegs

theorem transcribe_no_engine_error (env : Env) (args : Args) (st : St)
    (p : String) (ov : Option String) (q m : String)
    (hig : args.ignore_errors = true) :
    (transcribe_audio_file env args st p ov).2 ≠ .error (.engineErr q m) := by
  rcases ensure_wav_spec env st p with hw | hw | hw | hw
  · unfold transcribe_audio_file
    rw [hw]
    cases he : env.engine p with
    | error msg => simp [he, hig]
    | ok segs =>
        cases hwr : env.writeOk (ov.getD ((splitext p).1 ++ ".srt")) <;>
          simp [he, hwr]
  · unfold transcribe_audio_file
    rw [hw]
    simp
  · unfold transcribe_audio_file
    rw [hw]
    cases he : env.engine (tempName st.tempCounter) with
    | error msg => simp [he, hig]
    | ok segs =>
        cases hwr : env.writeOk (ov.getD ((splitext p).1 ++ ".srt")) <;>
          simp [he, hwr]
  · unfold transcribe_audio_file
    rw [hw]
    simp

/-! ### Claim theorems -/

/-- C2: `format_srt_timestamp` follows the claimed floor/round formulas
and matches the claimed values at `0.0` and (in exact arithmetic) at
`3661.2345`; but at `0.9996` the rounded millisecond value `1000` is
only padded, never carried, so the code emits the malformed timestamp
`"00:00:00,1000"` instead of the claimed `"00:00:01,000"`. -/
theorem c2_format_timestamp_bug :
    format_srt_timestamp 0 = "00:00:00,000" ∧
    format_srt_timestamp (36612345 / 10000 : ℚ) = "01:01:01,234" ∧
    format_srt_timestamp (9996 / 10000 : ℚ) = "00:00:00,1000" ∧
    format_srt_timestamp (9996 / 10000 : ℚ) ≠ "00:00:01,000" := by
  have e0 : format_srt_timestamp 0 = "00:00:00,000" := by
    have f1 : pyFloorDiv 0 3600 = (0 : ℚ) := by
      unfold pyFloorDiv
      rw [ratFloor_eq_of (n := 0) (by norm_num) (by norm_num)]
      norm_num
    have m1 : pyMod 0 3600 = (0 : ℚ) := by
      unfold pyMod
      rw [ratFloor_eq_of (n := 0) (by norm_num) (by norm_num)]
      norm_num
    have m2 : pyMod 0 60 = (0 : ℚ) := by
      unfold pyMod
      rw [ratFloor_eq_of (n := 0) (by norm_num) (by norm_num)]
      norm_num
    have t0 : pyTrunc 0 = 0 := by
      unfold pyTrunc
      rw [if_neg (by norm_num), ratFloor_eq_of (n := 0) (by norm_num) (by norm_num)]
    have f2 : pyFloorDiv 0 60 = (0 : ℚ) := by
      unfold pyFloorDiv
      rw [ratFloor_eq_of (n := 0) (by norm_num) (by norm_num)]
      norm_num
    have r0 : pyRound ((0 - (pyTrunc 0 : ℚ)) * 1000) = 0 := by
      rw [t0]
      simp only [pyRound]
      rw [ratFloor_eq_of (n := 0) (by norm_num) (by norm_num)]
      rw [if_pos (by norm_num)]
    simp only [format_srt_timestamp]
    rw [m1, m2, f1, f2, r0, t0]
    decide
  have e1 : format_srt_timestamp (36612345 / 10000 : ℚ) = "01:01:01,234" := by
    have f1 : pyFloorDiv (36612345 / 10000 : ℚ) 3600 = (1 : ℚ) := by
      unfold pyFloorDiv
      rw [ratFloor_eq_of (n := 1) (by norm_num) (by norm_num)]
      norm_num
    have m1 : pyMod (36612345 / 10000 : ℚ) 3600 = (612345 / 10000 : ℚ) := by
      unfold pyMod
      rw [ratFloor_eq_of (n := 1) (by norm_num) (by norm_num)]
      norm_num
    have f2 : pyFloorDiv (612345 / 10000 : ℚ) 60 = (1 : ℚ) := by
      unfold pyFloorDiv
      rw [ratFloor_eq_of (n := 1) (by norm_num) (by norm_num)]
      norm_num
    have m2 : pyMod (36612345 / 10000 : ℚ) 60 = (12345 / 10000 : ℚ) := by
      unfold pyMod
      rw [ratFloor_eq_of (n := 61) (by norm_num) (by norm_num)]
      norm_num
    have t1 : pyTrunc (1 : ℚ) = 1 := by
      unfold pyTrunc
      rw [if_neg (by norm_num), ratFloor_eq_of (n := 1) (by norm_num) (by norm_num)]
    have t2 : pyTrunc (12345 / 10000 : ℚ) = 1 := by
      unfold pyTrunc
      rw [if_neg (by norm_num), ratFloor_eq_of (n := 1) (by norm_num) (by norm_num)]
    have tV : pyTrunc (36612345 / 10000 : ℚ) = 3661 := by
      unfold pyTrunc
      rw [if_neg (by norm_num),
        ratFloor_eq_of (n := 3661) (by norm_num) (by norm_num)]
    have rV : pyRound ((36612345 / 10000 - (pyTrunc (36612345 / 10000 : ℚ) : ℚ)) * 1000)
        = 234 := by
      rw [tV]
      simp only [pyRound]
      rw [ratFloor_eq_of (n := 234) (by norm_num) (by norm_num)]
      rw [if_neg (by norm_num), if_neg (by norm_num), if_pos (by decide)]
    simp only [format_srt_timestamp]
    rw [m1, m2, f1, f2, rV, t1, t2]
    decide
  have e2 : format_srt_timestamp (9996 / 10000 : ℚ) = "00:00:00,1000" := by
    have f1 : pyFloorDiv (9996 / 10000 : ℚ) 3600 = (0 : ℚ) := by
      unfold pyFloorDiv
      rw [ratFloor_eq_of (n := 0) (by norm_num) (by norm_num)]
      norm_num
    have m1 : pyMod (9996 / 10000 : ℚ) 3600 = (9996 / 10000 : ℚ) := by
      unfold pyMod
      rw [ratFloor_eq_of (n := 0) (by norm_num) (by norm_num)]
      norm_num
    have f2 : pyFloorDiv (9996 / 10000 : ℚ) 60 = (0 : ℚ) := by
      unfold pyFloorDiv
      rw [ratFloor_eq_of (n := 0) (by norm_num) (by norm_num)]
      norm_num
    have m2 : pyMod (9996 / 10000 : ℚ) 60 = (9996 / 10000 : ℚ) := by
      unfold pyMod
      rw [ratFloor_eq_of (n := 0) (by norm_num) (by norm_num)]
      norm_num
    have t1 : pyTrunc (0 : ℚ) = 0 := by
      unfold pyTrunc
      rw [if_neg (by norm_num), ratFloor_eq_of (n := 0) (by norm_num) (by norm_num)]
    have t2 : pyTrunc (9996 / 10000 : ℚ) = 0 := by
      unfold pyTrunc
      rw [if_neg (by norm_num), ratFloor_eq_of (n := 0) (by norm_num) (by norm_num)]
    have rV : pyRound ((9996 / 10000 - (pyTrunc (9996 / 10000 : ℚ) : ℚ)) * 1000)
        = 1000 := by
      rw [t2]
      simp only [pyRound]
      rw [ratFloor_eq_of (n := 999) (by norm_num) (by norm_num)]
      rw [if_neg (by norm_num), if_pos (by norm_num)]
      decide
    simp only [format_srt_timestamp]
    rw [m1, m2, f1, f2, rV, t2, t1]
    decide
  refine ⟨e0, e1, e2, ?_⟩
  rw [e2]
  decide

/-- C4: `write_srt` produces exactly one block per segment, blocks are
indexed sequentially from 1, each block is the index line, the
`-->`-separated time-range line, the text verbatim and a blank
separator, and the empty segment list produces empty file content. -/
theorem c4_write_srt_roundtrip :
    (∀ segs : List Seg,
      write_srt segs =
        ((segs.enumFrom 1).map fun p => srtBlock p.1 p.2).foldr
          (fun a b => a ++ b) "" ∧
      ((segs.enumFrom 1).map fun p => srtBlock p.1 p.2).length =
        segs.length) ∧
    write_srt [] = "" := by
  refine ⟨fun segs => ⟨writeSrtFrom_eq_blocks segs 1, by simp⟩, rfl⟩

/-- C10: `transcribe_audio_file` returns `None` only under
`ignore_errors`; with `ignore_errors = False` every call ends in a
written path or an exception, so the `None`-with-raise-errors branch of
the CLI loop is unreachable. -/
theorem c10_none_only_when_ignoring (env : Env) (args : Args) (st : St)
    (p : String) (ov : Option String) (h : args.ignore_errors = false) :
    (transcribe_audio_file env args st p ov).2 ≠ .ok none := by
  unfold transcribe_audio_file
  rcases hw : ensure_wav env st p with ⟨st1, r⟩
  cases r with
  | error e => simp
  | ok pr =>
      rcases pr with ⟨wav, is_temp⟩
      cases he : env.engine wav with
      | error msg => simp [he, h]
      | ok segs => cases hwr : env.writeOk (ov.getD ((splitext p).1 ++ ".srt")) <;>
          simp [he, hwr]

/-- Witness for C10 at a concrete input. -/
theorem c10_none_only_when_ignoring_witness :
    (transcribe_audio_file envT argsR st0 "b.mp3" none).2 ≠ .ok none :=
  c10_none_only_when_ignoring envT argsR st0 "b.mp3" none rfl

/-- C3 (as stated) is false: when ffmpeg fails, `ensure_wav` has already
created the temporary file, the exception propagates before the
`try/finally` is entered, and the temporary file is still on disk after
`transcribe_audio_file` raises. -/
theorem c3_counterexample :
    (transcribe_audio_file envT argsI st0 "b.mp3" none).1.tempFiles =
      ["/tmp/tmp0.wav"] ∧
    (transcribe_audio_file envT argsI st0 "b.mp3" none).2 =
      .error (.transcodeFailed "b.mp3") := by
  exact ⟨rfl, rfl⟩

/-- C3 amended: whenever `transcribe_audio_file` does not fail with a
transcode error (ffmpeg exiting non-zero), the temporary-file state
after the call equals the state before — the temporary created for a
transcoded input is deleted on success, on engine failure and on write
failure alike. -/
theorem c3_temp_cleanup (env : Env) (args : Args) (st : St) (p : String)
    (ov : Option String)
    (h : (transcribe_audio_file env args st p ov).2 ≠
      .error (.transcodeFailed p)) :
    (transcribe_audio_file env args st p ov).1.tempFiles = st.tempFiles := by
  rcases ensure_wav_spec env st p with hw | hw | hw | hw
  · unfold transcribe_audio_file
    rw [hw]
    cases he : env.engine p with
    | error msg => cases hi : args.ignore_errors <;> simp [he, hi]
    | ok segs =>
        cases hwr : env.writeOk (ov.getD ((splitext p).1 ++ ".srt")) <;>
          simp [he, hwr]
  · unfold transcribe_audio_file
    rw [hw]
  · unfold transcribe_audio_file
    rw [hw]
    cases he : env.engine (tempName st.tempCounter) with
    | error msg =>
        cases hi : args.ignore_errors <;>
          simp [he, hi, removeTemp, tempPush, List.erase_cons_head]
    | ok segs =>
        cases hwr : env.writeOk (ov.getD ((splitext p).1 ++ ".srt")) <;>
          simp [he, hwr, removeTemp, tempPush, List.erase_cons_head]
  · exfalso
    apply h
    unfold transcribe_audio_file
    rw [hw]

/-- Witness for C3's amended theorem: a `.wav` input needs no transcoding
and leaves the temporary-file state untouched. -/
theorem c3_temp_cleanup_witness :
    (transcribe_audio_file envT argsI st0 "a.wav" none).1.tempFiles =
      st0.tempFiles :=
  c3_temp_cleanup envT argsI st0 "a.wav" none (by decide)

/-- C7: discovery is a deterministic function of the snapshot — two
snapshots that answer every existence, directory-test and enumeration
query identically yield identical ordered output for the same inputs
and recursion flag. -/
theorem c7_discovery_deterministic (fs fs' : FS) (inputs : List String)
    (recursive : Bool)
    (h1 : ∀ p, fs.pathExists p = fs'.pathExists p)
    (h2 : ∀ p, fs.isDir p = fs'.isDir p)
    (h3 : ∀ d, fs.walkFiles d = fs'.walkFiles d)
    (h4 : ∀ d, fs.scanFiles d = fs'.scanFiles d) :
    collect_media_paths fs inputs recursive =
      collect_media_paths fs' inputs recursive := by
  have hfs : fs = fs' := by
    cases fs
    cases fs'
    simp only [FS.mk.injEq]
    exact ⟨funext h1, funext h2, funext h3, funext h4⟩
  rw [hfs]

/-- Witness for C7 at a concrete snapshot and input list. -/
theorem c7_discovery_deterministic_witness :
    collect_media_paths exFS ["d"] true = collect_media_paths exFS ["d"] true :=
  c7_discovery_deterministic exFS exFS ["d"] true (fun _ => rfl) (fun _ => rfl)
    (fun _ => rfl) (fun _ => rfl)

/-- C5: no path with an adjacent same-stem `.srt` file ever appears in
the output of `collect_media_paths`; in particular a directory holding
`a.mp3`, `a.srt`, `b.wav` yields only `b.wav`. -/
theorem c5_adjacent_srt_skip :
    (∀ (fs : FS) (inputs : List String) (recursive : Bool)
        (out : List String),
      collect_media_paths fs inputs recursive = .ok out →
      ∀ p ∈ out, has_adjacent_srt fs p = false) ∧
    collect_media_paths exFS ["d"] true = .ok ["d/b.wav"] := by
  constructor
  · intro fs inputs recursive out heq
    exact collectGo_adj fs recursive inputs [] [] out (by simp) heq
  · rfl

/-- Witness for C5's universal part at the concrete snapshot. -/
theorem c5_adjacent_srt_skip_witness :
    has_adjacent_srt exFS "d/b.wav" = false :=
  c5_adjacent_srt_skip.1 exFS ["d"] true ["d/b.wav"] c5_adjacent_srt_skip.2
    "d/b.wav" (by simp)

/-- C8: the list returned by one `collect_media_paths` call never
repeats a path string, however often it occurs among the raw inputs or
the enumerated directory entries. -/
theorem c8_discovery_nodup (fs : FS) (inputs : List String)
    (recursive : Bool) (out : List String)
    (h : collect_media_paths fs inputs recursive = .ok out) : out.Nodup :=
  collectGo_nodup fs recursive inputs [] [] out List.nodup_nil (by simp) h

/-- Witness for C8: duplicated raw inputs still yield a duplicate-free
output. -/
theorem c8_discovery_nodup_witness :
    (["d/b.wav"] : List String).Nodup :=
  c8_discovery_nodup exFS ["d", "d", "d/b.wav"] true ["d/b.wav"] rfl

/-- C6: `collect_media_paths` raises `FileNotFoundError` exactly for
missing raw inputs and `ValueError` (unsupported media) exactly for
existing non-directory inputs with unrecognized extensions; any error it
returns is blamed on such an input, and in `main` a discovery error
aborts before the ASR model is loaded, so the engine is never touched. -/
theorem c6_discovery_errors :
    (∀ (fs : FS) (inputs : List String) (recursive : Bool)
        (e : DiscoveryError),
      collect_media_paths fs inputs recursive = .error e →
      (∃ p ∈ inputs, fs.pathExists p = false ∧ e = .notFound p) ∨
      (∃ p ∈ inputs, fs.pathExists p = true ∧ fs.isDir p = false ∧
        is_media_file p = false ∧ e = .unsupported p)) ∧
    (∀ (fs : FS) (recursive : Bool) (p : String) (rest : List String),
      fs.pathExists p = false →
      collect_media_paths fs (p :: rest) recursive =
        .error (.notFound p)) ∧
    (∀ (fs : FS) (recursive : Bool) (p : String) (rest : List String),
      fs.pathExists p = true → fs.isDir p = false →
      is_media_file p = false →
      collect_media_paths fs (p :: rest) recursive =
        .error (.unsupported p)) ∧
    (∀ (env : Env) (args : Args) (inputs : List String) (e : DiscoveryError),
      collect_media_paths env.fs inputs args.recursive = .error e →
      cli_main env args inputs = ⟨some e, false, none⟩) := by
  refine ⟨?_, ?_, ?_, ?_⟩
  · intro fs inputs recursive e heq
    exact collectGo_err fs recursive inputs [] [] e heq
  · intro fs recursive p rest h
    simp [collect_media_paths, collectGo, h]
  · intro fs recursive p rest h1 h2 h3
    simp [collect_media_paths, collectGo, h1, h2, h3]
  · intro env args inputs e heq
    unfold cli_main
    rw [heq]

/-- Witness for C6: a missing input and an unsupported direct file each
fail at discovery, and the missing input aborts `main` before the model
loads. -/
theorem c6_discovery_errors_witness :
    collect_media_paths exFS ["missing"] true = .error (.notFound "missing") ∧
    collect_media_paths exFS2 ["notes.txt"] false =
      .error (.unsupported "notes.txt") ∧
    cli_main envT argsI ["missing"] =
      ⟨some (.notFound "missing"), false, none⟩ := by
  refine ⟨?_, ?_, ?_⟩
  · exact c6_discovery_errors.2.1 exFS true "missing" [] (by decide)
  · exact c6_discovery_errors.2.2.1 exFS2 false "notes.txt" [] (by decide)
      (by decide) (by decide)
  · exact c6_discovery_errors.2.2.2 envT argsI ["missing"]
      (.notFound "missing") rfl

/-- C1 (as stated) is false: with the isolation policy enabled
(`ignore_errors = True`, the default), a `TranscodeFailedError` on the
second of three files is not captured — it aborts the whole batch, and
the third file never produces a subtitle output. Only engine errors are
guarded by the `try/except` in `transcribe_audio_file`. -/
theorem c1_counterexample :
    (runBatch envT argsI st0 ["a.wav", "b.mp3", "c.wav"]).2 =
      .error (.transcodeFailed "b.mp3") ∧
    (runBatch envT argsI st0 ["a.wav", "b.mp3", "c.wav"]).1.outputs =
      [("a.srt", [])] ∧
    argsI.ignore_errors = true := ⟨rfl, rfl, rfl⟩

/-- C1 amended: with isolation enabled, an *engine* failure is captured
per file (never escapes as an exception) and the batch continues — on a
run with no transcode or write failures every scheduled file is
processed, and every scheduled file (a `.wav` passed through as is, any
other file transcoded to its generated temporary WAV, as paired by
`pathWavPairs`) whose engine call succeeds gets its subtitle output;
with isolation disabled, the first failing file stops iteration
immediately and the remaining paths are untouched (the state is exactly
the failing call's state). Transcode and write failures abort the batch
regardless of the policy. -/
theorem c1_error_isolation_amended :
    (∀ (env : Env) (args : Args) (st : St) (p : String) (ov : Option String)
        (q m : String), args.ignore_errors = true →
      (transcribe_audio_file env args st p ov).2 ≠ .error (.engineErr q m)) ∧
    (∀ (env : Env) (args : Args) (paths : List String),
      args.ignore_errors = true →
      (∀ p ∈ paths, strEndsWith (lowerStr p) ".wav" = true ∨
        (env.ffmpegAvailable = true ∧ env.ffmpegOk p = true)) →
      (∀ o, env.writeOk o = true) →
      ∀ st : St,
        (runBatch env args st paths).2 = .ok () ∧
        (∀ pr ∈ st.outputs, pr ∈ (runBatch env args st paths).1.outputs) ∧
        (∀ pw ∈ pathWavPairs st.tempCounter paths, ∀ segs,
          env.engine pw.2 = .ok segs →
            (args.output.getD ((splitext pw.1).1 ++ ".srt"), segs) ∈
              (runBatch env args st paths).1.outputs)) ∧
    (∀ (env : Env) (args : Args) (st : St) (p : String) (rest : List String)
        (st1 : St) (e : Err), args.ignore_errors = false →
      transcribe_audio_file env args st p args.output = (st1, .error e) →
      runBatch env args st (p :: rest) = (st1, .error e)) := by
  refine ⟨transcribe_no_engine_error, runBatch_clean, ?_⟩
  intro env args st p rest st1 e _ heq
  simp only [runBatch]
  rw [heq]

/-- Witness for C1's amended theorem at concrete environments, including
a transcoded (non-`.wav`) input receiving its subtitle output. -/
theorem c1_error_isolation_amended_witness :
    (transcribe_audio_file envOk argsI st0 "x.wav" none).2 ≠
      .error (.engineErr "x.wav" "boom") ∧
    (runBatch envOk argsI st0 ["d/b.wav"]).2 = .ok () ∧
    ("d/a.srt", ([] : List Seg)) ∈
      (runBatch envOk argsI st0 ["d/a.mp3"]).1.outputs ∧
    runBatch envE argsR st0 ["a.wav", "c.wav"] =
      (⟨0, [], [], ["a.wav"]⟩, .error (.engineErr "a.wav" "boom")) := by
  refine ⟨c1_error_isolation_amended.1 envOk argsI st0 "x.wav" none
      "x.wav" "boom" rfl, ?_, ?_, ?_⟩
  · exact (c1_error_isolation_amended.2.1 envOk argsI ["d/b.wav"] rfl
      (by decide) (fun o => rfl) st0).1
  · exact (c1_error_isolation_amended.2.1 envOk argsI ["d/a.mp3"] rfl
      (by decide) (fun o => rfl) st0).2.2 ("d/a.mp3", tempName 0)
      (by decide) [] rfl
  · exact c1_error_isolation_amended.2.2 envE argsR st0 "a.wav" ["c.wav"]
      ⟨0, [], [], ["a.wav"]⟩ (.engineErr "a.wav" "boom") rfl rfl

/-- C9: the worker loop terminates exactly when it observes the stop
flag at the top of an iteration or dequeues the sentinel; any error
while processing a WorkItem — a discovery failure or a per-file
transcription failure — is turned into a sink report (`.discoveryError`
by `process_inputs`, `.fileError` by the per-file loop, which then
continues with the remaining files when isolation is on) and never
terminates the worker, which goes on to the next item. -/
theorem c9_worker_loop :
    (∀ (env : Env) (args : Args) (w : WSt) (trace : List IterObs),
      (workerRun env args w trace).2 = .running ↔
        ∀ obs ∈ trace, obs.stopSet = false ∧ obs.poll ≠ .item none) ∧
    (∀ (env : Env) (args : Args) (w : WSt) (inputs : List String)
        (e : DiscoveryError),
      collect_media_paths env.fs inputs args.recursive = .error e →
      process_inputs env args w inputs =
        ⟨w.st, w.log ++ [.discoveryError e]⟩) ∧
    (∀ (env : Env) (args : Args) (w : WSt) (p : String)
        (rest : List String) (st1 : St) (e : Err),
      transcribe_audio_file env args w.st p none = (st1, .error e) →
      processFiles env args w (p :: rest) =
        (if args.ignore_errors then
          processFiles env args ⟨st1, w.log ++ [.fileError p e]⟩ rest
        else ⟨st1, w.log ++ [.fileError p e]⟩)) := by
  refine ⟨?_, ?_, ?_⟩
  · intro env args w trace
    induction trace generalizing w with
    | nil => simp [workerRun]
    | cons obs rest ih =>
        rcases obs with ⟨s, poll⟩
        cases s with
        | true => simp [workerRun]
        | false =>
            cases poll with
            | empty => simp [workerRun, ih]
            | item o =>
                cases o with
                | none => simp [workerRun]
                | some inputs => simp [workerRun, ih]
  · intro env args w inputs e heq
    unfold process_inputs
    rw [heq]
  · intro env args w p rest st1 e heq
    simp only [processFiles]
    rw [heq]

/-- Witness for C9: a work item whose discovery fails is reported and
the worker is still running afterwards, and a file whose transcription
fails is reported to the sink by the per-file loop. -/
theorem c9_worker_loop_witness :
    (workerRun envT argsI w0
      [⟨false, .item (some ["missing"])⟩, ⟨false, .empty⟩]).2 = .running ∧
    process_inputs envT argsI w0 ["missing"] =
      ⟨st0, [.discoveryError (.notFound "missing")]⟩ ∧
    processFiles envE argsR w0 ["a.wav"] =
      ⟨⟨0, [], [], ["a.wav"]⟩,
        [.fileError "a.wav" (.engineErr "a.wav" "boom")]⟩ := by
  refine ⟨?_, ?_, ?_⟩
  · exact (c9_worker_loop.1 envT argsI w0
      [⟨false, .item (some ["missing"])⟩, ⟨false, .empty⟩]).mpr (by decide)
  · exact c9_worker_loop.2.1 envT argsI w0 ["missing"] (.notFound "missing") rfl
  · exact (c9_worker_loop.2.2 envE argsR w0 "a.wav" []
      ⟨0, [], [], ["a.wav"]⟩ (.engineErr "a.wav" "boom") rfl).trans rfl

end GigaamSrt
